import Mathlib

/-
Verification of the XRF forward-model / fitting module
(skxray/fitting/xrf_model.py) of the scikit-beam repository.

The embedding models Python dictionaries as association lists, Python
floats as rationals (reals for the transcendental lineshape math),
fallible operations as Except values over a small Python-error type, and
the boundary fitting framework's "parameter hint" mechanism as records of
optional fields that merge on repeated set_param_hint calls.
-/

/-- Python runtime errors that the module can surface. -/
inductive PyErr where
  | keyError : String → PyErr
  | valueError : String → PyErr
  | attributeError : String → PyErr
  | typeError : String → PyErr
  | unboundLocalError : String → PyErr
deriving DecidableEq

/-- One fitting parameter's description (a row of the parameter table):
bound_type, value, min, max plus the auxiliary bound-type fields. -/
structure ParameterSpec where
  bound_type : String
  value : ℚ
  min : ℚ
  max : ℚ
  free_more : String
  adjust_element : String
  e_calibration : String
  linear : String
deriving DecidableEq

/-- A Python dict mapping parameter names to ParameterSpec, as an
association list; the most recently set binding is found first. -/
def ParamDict := List (String × ParameterSpec)
deriving DecidableEq

def dictGet (d : ParamDict) (k : String) : Option ParameterSpec :=
  (List.find? (fun p => p.1 == k) d).map (fun p => p.2)

def dictSet (d : ParamDict) (k : String) (v : ParameterSpec) : ParamDict :=
  (k, v) :: List.filter (fun p => p.1 != k) d

/-- The reserved non_fitting_values entry of a parameter table. -/
structure NonFitting where
  element_list : Option String
  energy_bound_low : ℚ
  energy_bound_high : ℚ
deriving DecidableEq

/-- A full parameter table: named ParameterSpec entries plus the reserved
non_fitting_values metadata entry. -/
structure ParameterTable where
  params : ParamDict
  non_fitting_values : NonFitting
deriving DecidableEq

/-- Modelled from the spec: one parameter hint of the boundary fitting
framework (lmfit set_param_hint kwargs); absent fields are not touched
when hints for the same name are merged. -/
structure Hint where
  value : Option ℚ
  vary : Option Bool
  hmin : Option ℚ
  hmax : Option ℚ
  expr : Option String
deriving DecidableEq

def emptyHint : Hint := { value := none, vary := none, hmin := none, hmax := none, expr := none }

/-- Modelled from the spec: repeated set_param_hint calls for one name
merge keyword-by-keyword; a field passed in the new call wins. -/
def mergeHint (old new : Hint) : Hint :=
  { value := new.value <|> old.value
    vary := new.vary <|> old.vary
    hmin := new.hmin <|> old.hmin
    hmax := new.hmax <|> old.hmax
    expr := new.expr <|> old.expr }

def ModelH := List (String × Hint)
deriving DecidableEq

def getHint (m : ModelH) (n : String) : Option Hint :=
  (List.find? (fun p => p.1 == n) m).map (fun p => p.2)

def setHint (m : ModelH) (n : String) (h : Hint) : ModelH :=
  (n, mergeHint ((getHint m n).getD emptyHint) h) :: m

/-- A sub-model of the composite: its parameter-name pfx and its
accumulated parameter hints (keyed by unprefixed parameter name). -/
structure SubModel where
  pfx : String
  hints : ModelH
deriving DecidableEq

def setHintS (s : SubModel) (n : String) (h : Hint) : SubModel :=
  { s with hints := setHint s.hints n h }

def hintExpr (s : SubModel) (n : String) : Option String :=
  (getHint s.hints n).bind (fun h => h.expr)

def hintV (v : ℚ) (vr : Bool) : Hint :=
  { value := some v, vary := some vr, hmin := none, hmax := none, expr := none }

def hintVE (v : ℚ) (vr : Bool) (e : String) : Hint :=
  { value := some v, vary := some vr, hmin := none, hmax := none, expr := some e }

def hintVMin (v : ℚ) (vr : Bool) (mn : ℚ) : Hint :=
  { value := some v, vary := some vr, hmin := some mn, hmax := none, expr := none }

/-- Translate one ParameterSpec into a parameter hint on the target model
(xrf_model._set_parameter_hint). -/
def _set_parameter_hint (para_name : String) (input_dict : ParameterSpec)
    (input_model : SubModel) : Except PyErr SubModel :=
  if input_dict.bound_type = "none" then
    .ok (setHintS input_model para_name (hintV input_dict.value true))
  else if input_dict.bound_type = "fixed" then
    .ok (setHintS input_model para_name (hintV input_dict.value false))
  else if input_dict.bound_type = "lohi" then
    .ok (setHintS input_model para_name
      { value := some input_dict.value, vary := some true,
        hmin := some input_dict.min, hmax := some input_dict.max, expr := none })
  else if input_dict.bound_type = "lo" then
    .ok (setHintS input_model para_name (hintVMin input_dict.value true input_dict.min))
  else if input_dict.bound_type = "hi" then
    .ok (setHintS input_model para_name (hintVMin input_dict.value true input_dict.max))
  else
    .error (.valueError ("could not set values for " ++ para_name))

/-- Emission-line families with energy above 1 keV (k_line table). -/
def k_line : List String :=
  ["Na", "Mg", "Al", "Si", "P", "S", "Cl", "Ar", "K", "Ca", "Sc", "Ti", "V", "Cr",
   "Mn", "Fe", "Co", "Ni", "Cu", "Zn", "Ga", "Ge", "As", "Se", "Br", "Kr", "Rb",
   "Sr", "Y", "Zr", "Nb", "Mo", "Tc", "Ru", "Rh", "Pd", "Ag", "Cd",
   "In", "Sn", "Sb", "Te", "I"]

def l_line : List String :=
  ["Ga_L", "Ge_L", "As_L", "Se_L", "Br_L", "Kr_L", "Rb_L", "Sr_L", "Y_L", "Zr_L", "Nb_L",
   "Mo_L", "Tc_L", "Ru_L", "Rh_L", "Pd_L", "Ag_L", "Cd_L", "In_L", "Sn_L", "Sb_L", "Te_L",
   "I_L", "Xe_L", "Cs_L", "Ba_L", "La_L", "Ce_L", "Pr_L", "Nd_L", "Pm_L", "Sm_L", "Eu_L",
   "Gd_L", "Tb_L", "Dy_L", "Ho_L", "Er_L", "Tm_L", "Yb_L", "Lu_L", "Hf_L", "Ta_L", "W_L",
   "Re_L", "Os_L", "Ir_L", "Pt_L", "Au_L", "Hg_L", "Tl_L", "Pb_L", "Bi_L", "Po_L", "At_L",
   "Rn_L", "Fr_L", "Ac_L", "Th_L", "Pa_L", "U_L", "Np_L", "Pu_L", "Am_L"]

def m_line : List String :=
  ["Hf_M", "Ta_M", "W_M", "Re_M", "Os_M", "Ir_M", "Pt_M", "Au_M", "Hg_M", "TL_M", "Pb_M", "Bi_M",
   "Sm_M", "Eu_M", "Gd_M", "Tb_M", "Dy_M", "Ho_M", "Er_M", "Tm_M", "Yb_M", "Lu_M", "Th_M", "Pa_M", "U_M"]

/-- Per-property ParameterSpec templates used by the dynamic bound
controller (element_dict). -/
def element_dict_pos : ParameterSpec :=
  { bound_type := "fixed", min := -0.005, max := 0.005, value := 0,
    free_more := "fixed", adjust_element := "lohi", e_calibration := "fixed", linear := "fixed" }

def element_dict_width : ParameterSpec :=
  { bound_type := "fixed", min := -0.02, max := 0.02, value := 0,
    free_more := "fixed", adjust_element := "lohi", e_calibration := "fixed", linear := "fixed" }

def element_dict_area : ParameterSpec :=
  { bound_type := "none", min := 0, max := 1000000000, value := 1000,
    free_more := "none", adjust_element := "fixed", e_calibration := "fixed", linear := "none" }

def element_dict_ratio : ParameterSpec :=
  { bound_type := "fixed", min := 0.1, max := 5.0, value := 1.0,
    free_more := "fixed", adjust_element := "lohi", e_calibration := "fixed", linear := "fixed" }

def get_L_line (prop_name element : String) : List String :=
  (["la1", "la2", "lb1", "lb2", "lb3", "lg1", "lg2", "ll"]).map
    (fun item => prop_name ++ "-" ++ element ++ "-" ++ item)

/-- One prefix test over character lists (first argument is the candidate
prefix). -/
def startsWithC : List Char → List Char → Bool
  | [], _ => true
  | _ :: _, [] => false
  | a :: as, b :: bs => a == b && startsWithC as bs

/-- Substring search over character lists: does sub occur in s. -/
def hasSub : List Char → List Char → Bool
  | [], sub => sub.isEmpty
  | s@(_ :: tail), sub => startsWithC sub s || hasSub tail sub

/-- Python substring membership (the `in` operator on strings). -/
def strContains (s sub : String) : Bool :=
  hasSub s.data sub.data

/-- Python str.strip(): drop whitespace from both ends. -/
def trimChars (l : List Char) : List Char :=
  ((l.dropWhile Char.isWhitespace).reverse.dropWhile Char.isWhitespace).reverse

def pyStrip (s : String) : String := ⟨trimChars s.data⟩

/-- Python str.split() with no argument: split on whitespace runs,
dropping empty tokens. -/
def splitWS : List Char → List Char → List (List Char)
  | [], acc => if acc.isEmpty then [] else [acc.reverse]
  | c :: cs, acc =>
    if c.isWhitespace then
      if acc.isEmpty then splitWS cs [] else acc.reverse :: splitWS cs []
    else splitWS cs (c :: acc)

/-- Python str.split(", "): split on the exact two-character separator,
keeping empty tokens. -/
def splitCommaSpace : List Char → List Char → List (List Char)
  | [], acc => [acc.reverse]
  | ',' :: ' ' :: cs, acc => acc.reverse :: splitCommaSpace cs []
  | c :: cs, acc => splitCommaSpace cs (c :: acc)

/-- Python truthiness of an optional-string argument: None and the empty
string are falsy. -/
def pyTruthy : Option String → Bool
  | none => false
  | some s => !s.data.isEmpty

/-- The source copies the per-property template and, when the option
argument is truthy, overwrites its adjust_element field. -/
def withAdjust (tpl : ParameterSpec) (o : Option String) : ParameterSpec :=
  if pyTruthy o then { tpl with adjust_element := o.getD "" } else tpl

/-- Per-element dynamic bound controller. new_parameter is the copy of the
caller's table made on construction (xrf_parameter.copy()); element_name
strips the 5-character _area suffix from the area-like fitting names. -/
structure ElementController where
  new_parameter : ParamDict
  element_name : List String
deriving DecidableEq

def ElementController.init (xrf_parameter : ParamDict) (fit_name : List String) : ElementController :=
  { new_parameter := xrf_parameter,
    element_name := (fit_name.filter (fun item => strContains item "area")).map
      (fun item => item.dropRight 5) }

def ElementController.set_position (c : ElementController) (item : String)
    (o : Option String) : ElementController :=
  if item ∈ k_line then
    let pos_list := [item ++ "_ka1_delta_center", item ++ "_ka2_delta_center",
                     item ++ "_kb1_delta_center"]
    pos_list.foldl (fun c linename =>
      { c with new_parameter := dictSet c.new_parameter linename (withAdjust element_dict_pos o) }) c
  else if item ∈ l_line then
    let item2 := item.dropRight 2
    (get_L_line "pos" item2).foldl (fun c linename =>
      let ps := linename.splitOn "-"
      let linev := ps.getD 1 "" ++ "_" ++ ps.getD 2 ""
      if linev ∈ c.element_name then
        { c with new_parameter := dictSet c.new_parameter linename (withAdjust element_dict_pos o) }
      else c) c
  else c

def ElementController.set_width (c : ElementController) (item : String)
    (o : Option String) : ElementController :=
  if item ∈ k_line then
    let width_list := [item ++ "_ka1_delta_sigma", item ++ "_ka2_delta_sigma",
                       item ++ "_kb1_delta_sigma"]
    width_list.foldl (fun c linename =>
      { c with new_parameter := dictSet c.new_parameter linename (withAdjust element_dict_width o) }) c
  else if item ∈ l_line then
    let item2 := item.dropRight 2
    (get_L_line "width" item2).foldl (fun c linename =>
      let ps := linename.splitOn "-"
      let linev := ps.getD 1 "" ++ "_" ++ ps.getD 2 ""
      if linev ∈ c.element_name then
        { c with new_parameter := dictSet c.new_parameter linename (withAdjust element_dict_width o) }
      else c) c
  else c

def ElementController.set_area (c : ElementController) (item : String)
    (o : Option String) : ElementController :=
  if item ∈ k_line then
    let area_list := [item ++ "_ka1_area"]
    area_list.foldl (fun c linename =>
      { c with new_parameter := dictSet c.new_parameter linename (withAdjust element_dict_area o) }) c
  else if item ∈ l_line then
    let item2 := item.dropRight 2
    (get_L_line "area" item2).foldl (fun c linename =>
      let ps := linename.splitOn "-"
      let linev := ps.getD 1 "" ++ "_" ++ ps.getD 2 ""
      if linev ∈ c.element_name then
        { c with new_parameter := dictSet c.new_parameter linename (withAdjust element_dict_area o) }
      else c) c
  else c

def ElementController.set_ratio (c : ElementController) (item : String)
    (o : Option String) : ElementController :=
  if item ∈ k_line then
    let data_list := [item ++ "_kb1_ratio_adjust"]
    data_list.foldl (fun c linename =>
      { c with new_parameter := dictSet c.new_parameter linename (withAdjust element_dict_ratio o) }) c
  else if item ∈ l_line then
    let item2 := item.dropRight 2
    (get_L_line "ratio" item2).foldl (fun c linename =>
      if strContains linename "la1" then c
      else
        let ps := linename.splitOn "-"
        let linev := ps.getD 1 "" ++ "_" ++ ps.getD 2 ""
        if linev ∈ c.element_name then
          { c with new_parameter := dictSet c.new_parameter linename (withAdjust element_dict_ratio o) }
        else c) c
  else c

/-- ElementController.set_val: dispatch each keyword to its per-property
setter, apply it to each requested element, and return new_parameter. -/
def ElementController.set_val (c : ElementController) (element_list : List String)
    (kws : List (String × String)) : Except PyErr ParamDict :=
  match (kws.foldlM (fun c kv =>
      match kv.1 with
      | "pos" => .ok (element_list.foldl (fun c element => c.set_position element (some kv.2)) c)
      | "width" => .ok (element_list.foldl (fun c element => c.set_width element (some kv.2)) c)
      | "area" => .ok (element_list.foldl (fun c element => c.set_area element (some kv.2)) c)
      | "ratio" => .ok (element_list.foldl (fun c element => c.set_ratio element (some kv.2)) c)
      | _ => .error (PyErr.valueError "Please define either pos, width or area."))
      c : Except PyErr ElementController) with
  | .error e => .error e
  | .ok c => .ok c.new_parameter

/-- The fitted-values mapping of a fit result (result_val.values). -/
def FitResult := List (String × ℚ)
deriving DecidableEq

def fitGet (r : FitResult) (k : String) : Option ℚ :=
  (List.find? (fun p => p.1 == k) r).map (fun p => p.2)

def fitGetE (r : FitResult) (k : String) : Except PyErr ℚ :=
  match fitGet r k with
  | some v => .ok v
  | none => .error (.keyError k)

/-- The per-line area contribution area * ratio * ratio_adjust read from a
fit result (inner get_value of get_sum_area); a missing name is a KeyError. -/
def get_value (result_val : FitResult) (element_name line_name : String) : Except PyErr ℚ :=
  match fitGetE result_val (element_name ++ "_" ++ line_name ++ "_area") with
  | .error e => .error e
  | .ok a =>
    match fitGetE result_val (element_name ++ "_" ++ line_name ++ "_ratio") with
    | .error e => .error e
    | .ok r =>
      match fitGetE result_val (element_name ++ "_" ++ line_name ++ "_ratio_adjust") with
      | .error e => .error e
      | .ok ra => .ok (a * r * ra)

/-- Total fitted area for an element (get_sum_area). The accumulator sum is
only assigned in the K-series branch; for any other name the final
return sum reads an unassigned local, an UnboundLocalError. -/
def get_sum_area (element_name : String) (result_val : FitResult) : Except PyErr ℚ :=
  if element_name ∈ k_line then
    match get_value result_val element_name "ka1" with
    | .error e => .error e
    | .ok s1 =>
      match get_value result_val element_name "ka2" with
      | .error e => .error e
      | .ok s2 =>
        match get_value result_val element_name "kb1" with
        | .error e => .error e
        | .ok s3 =>
          if (fitGet result_val (element_name ++ "_kb2_area")).isSome then
            match get_value result_val element_name "kb2" with
            | .error e => .error e
            | .ok s4 => .ok (s1 + s2 + s3 + s4)
          else .ok (s1 + s2 + s3)
  else .error (.unboundLocalError "sum")

/-- Restrict a spectrum to the configured energy window (set_range): keep
the (x, y) pairs with energy_bound_low*100 < x < energy_bound_high*100. -/
def set_range (parameter : ParameterTable) (x1 y1 : List ℚ) : List ℚ × List ℚ :=
  let lowv := parameter.non_fitting_values.energy_bound_low * 100
  let highv := parameter.non_fitting_values.energy_bound_high * 100
  let allp := x1.zip y1
  let x0 := (allp.filter (fun item => decide (lowv < item.1 ∧ item.1 < highv))).map (fun item => item.1)
  let y0 := (allp.filter (fun item => decide (lowv < item.1 ∧ item.1 < highv))).map (fun item => item.2)
  (x0, y0)

/-- Maximum of a list of rationals (Python max; the source only applies it
to nonempty weight vectors). -/
def listMax : List ℚ → ℚ
  | [] => 0
  | a :: t => t.foldl max a

/-- The per-channel weight vector computed by PreFitAnalysis.nnls_fit_weight:
weights = 1/(1+experiments), then abs, then division by the maximum.
The source performs the division with no guard. -/
def nnls_fit_weight_weights (experiments : List ℚ) : List ℚ :=
  let weights := experiments.map (fun e => 1 / (1 + e))
  let weights2 := weights.map (fun w => |w|)
  weights2.map (fun w => w / listMax weights2)

/-- The denominators of the unguarded per-channel weight computation in
nnls_fit_weight (the 1 + experiments term the source divides by). -/
def nnls_weight_denominators (experiments : List ℚ) : List ℚ :=
  experiments.map (fun e => 1 + e)

/-- The 14 named Compton parameters (compton_list). -/
def compton_list : List String :=
  ["coherent_sct_energy", "compton_amplitude",
   "compton_angle", "fwhm_offset", "fwhm_fanoprime",
   "e_offset", "e_linear", "e_quadratic",
   "compton_gamma", "compton_f_tail",
   "compton_f_step", "compton_fwhm_corr",
   "compton_hi_gamma", "compton_hi_f_tail"]

/-- The five global parameters every element sub-line model ties to the
Compton model by symbolic expression. -/
def element_global_names : List String :=
  ["e_offset", "e_linear", "e_quadratic", "fwhm_offset", "fwhm_fanoprime"]

/-- The six global parameters the elastic model ties to the Compton model,
in the source's order of set_param_hint calls. -/
def elastic_global_names : List String :=
  element_global_names ++ ["coherent_sct_energy"]

/-- One symbolic tie: set_param_hint(name, value = v, expr = name). -/
def tieHint (m : SubModel) (n : String) (v : ℚ) : SubModel :=
  setHintS m n { value := some v, vary := none, hmin := none, hmax := none, expr := some n }

/-- The block of per-name tie calls the source writes out one by one. -/
def tieAll (m : SubModel) (cpv : String → ℚ) (names : List String) : SubModel :=
  names.foldl (fun m n => tieHint m n (cpv n)) m

/-- One step of setComptonModel's loop: take the spec from the caller's
table when present, else from the default-parameter table. -/
def comptonStep (parameter : ParamDict) (dflt : String → ParameterSpec)
    (compton : SubModel) (name : String) : Except PyErr SubModel :=
  match dictGet parameter name with
  | some d => _set_parameter_hint name d compton
  | none => _set_parameter_hint name (dflt name) compton

/-- ModelSpectrum.setComptonModel: configure the 14 Compton parameters. -/
def setComptonModel (parameter : ParamDict) (dflt : String → ParameterSpec) :
    Except PyErr SubModel :=
  compton_list.foldlM (comptonStep parameter dflt) { pfx := "", hints := [] }

/-- The value the Compton parameter set assigns to a name
(self.compton_param[name].value). -/
def comptonValue (compton : SubModel) (name : String) : ℚ :=
  ((getHint compton.hints name).bind (fun h => h.value)).getD 0

/-- ModelSpectrum.setElasticModel: one own amplitude parameter, then the
six global parameters tied (value from compton_param, expr = name). -/
def setElasticModel (compton : SubModel) (parameter : ParamDict)
    (dflt : String → ParameterSpec) : Except PyErr SubModel :=
  match (match dictGet parameter "coherent_sct_amplitude" with
         | some d =>
             _set_parameter_hint "coherent_sct_amplitude" d { pfx := "elastic_", hints := [] }
         | none =>
             _set_parameter_hint "coherent_sct_amplitude" (dflt "coherent_sct_amplitude")
               { pfx := "elastic_", hints := [] }) with
  | .error e => .error e
  | .ok elastic => .ok (tieAll elastic (comptonValue compton) elastic_global_names)

/-- Modelled from the spec: the boundary physics table for one element —
the ordered emission_line.all list of (lineName, energy) pairs, and the
cross-section lookup cs(energy)[lineName] (0 if not excited). -/
structure ElementPhysics where
  lines : List (String × ℚ)
  cs : ℚ → String → ℚ

/-- ElementModel construction: a lineshape sub-model whose epsilon hint is
fixed at 2.96. -/
def newElementModel (px : String) : SubModel :=
  setHintS { pfx := px, hints := [] } "epsilon" (hintV 2.96 false)

/-- Apply a table override if the key is present: the source passes the
table entry through _set_parameter_hint onto the line model (the boundary
framework strips the model pfx from a prefixed hint name, so the hint is
stored under the plain parameter name para_name). -/
def applyTableOverride (parameter : ParamDict) (key para_name : String)
    (gm : SubModel) : Except PyErr SubModel :=
  match dictGet parameter key with
  | some d => _set_parameter_hint para_name d gm
  | none => .ok gm

/-- One K-series line sub-model (the body of setElementModel's K loop). -/
def kLineModel (ename line_name : String) (val ratio_v : ℚ)
    (parameter : ParamDict) (cpv : String → ℚ) : Except PyErr SubModel :=
  let gm := newElementModel (ename ++ "_" ++ line_name ++ "_")
  let gm := tieAll gm cpv element_global_names
  let gm :=
    if line_name = "ka1" then
      setHintS (setHintS (setHintS gm "area" (hintVMin 100000 true 0))
        "delta_center" (hintV 0 false)) "delta_sigma" (hintV 0 false)
    else if line_name = "ka2" then
      setHintS (setHintS (setHintS gm "area" (hintVE 100000 true (ename ++ "_ka1_" ++ "area")))
        "delta_sigma" (hintVE 0 false (ename ++ "_ka1_" ++ "delta_sigma")))
        "delta_center" (hintVE 0 false (ename ++ "_ka1_" ++ "delta_center"))
    else
      setHintS (setHintS (setHintS gm "area" (hintVE 100000 true (ename ++ "_ka1_" ++ "area")))
        "delta_center" (hintV 0 false)) "delta_sigma" (hintV 0 false)
  match applyTableOverride parameter (ename ++ "_" ++ line_name ++ "_area") "area" gm with
  | .error e => .error e
  | .ok gm =>
    let gm := setHintS gm "center" (hintV val false)
    let gm := setHintS gm "ratio" (hintV ratio_v false)
    let gm := setHintS gm "ratio_adjust" (hintV 1 false)
    match applyTableOverride parameter (ename ++ "_" ++ line_name ++ "_delta_center") "delta_center" gm with
    | .error e => .error e
    | .ok gm =>
      match applyTableOverride parameter (ename ++ "_" ++ line_name ++ "_delta_sigma") "delta_sigma" gm with
      | .error e => .error e
      | .ok gm =>
        applyTableOverride parameter (ename ++ "_" ++ line_name ++ "_ratio_adjust") "ratio_adjust" gm

/-- One L-series line sub-model (the body of setElementModel's L loop). -/
def lLineModel (ename line_name : String) (val ratio_v : ℚ)
    (parameter : ParamDict) (cpv : String → ℚ) : Except PyErr SubModel :=
  let gm := newElementModel (ename ++ "_" ++ line_name ++ "_")
  let gm := tieAll gm cpv element_global_names
  let gm :=
    if line_name = "la1" then setHintS gm "area" (hintV 100000 true)
    else setHintS gm "area" (hintVE 100000 true (ename ++ "_la1_" ++ "area"))
  let gm := setHintS gm "center" (hintV val false)
  let gm := setHintS gm "sigma" (hintV 1 false)
  let gm := setHintS gm "ratio" (hintV ratio_v false)
  let gm := setHintS gm "delta_center" (hintV 0 false)
  let gm := setHintS gm "delta_sigma" (hintV 0 false)
  let gm := setHintS gm "ratio_adjust" (hintV 1 false)
  match applyTableOverride parameter (ename ++ "_" ++ line_name ++ "_delta_center") "delta_center" gm with
  | .error e => .error e
  | .ok gm =>
    match applyTableOverride parameter (ename ++ "_" ++ line_name ++ "_delta_sigma") "delta_sigma" gm with
    | .error e => .error e
    | .ok gm =>
      applyTableOverride parameter (ename ++ "_" ++ line_name ++ "_ratio_adjust") "ratio_adjust" gm

/-- One M-series line sub-model (the body of setElementModel's M loop);
ratio is the hardcoded constant 0.1 and there are no table overrides. -/
def mLineModel (ename line_name : String) (val : ℚ) (cpv : String → ℚ) : SubModel :=
  let gm := newElementModel (ename ++ "_" ++ line_name ++ "_")
  let gm := tieAll gm cpv element_global_names
  let gm :=
    if line_name = "ma1" then setHintS gm "area" (hintV 100 true)
    else setHintS gm "area" (hintVE 100 true (ename ++ "_ma1_" ++ "area"))
  let gm := setHintS gm "center" (hintV val false)
  let gm := setHintS gm "sigma" (hintV 1 false)
  let gm := setHintS gm "ratio" (hintV 0.1 false)
  let gm := setHintS gm "delta_center" (hintV 0 false)
  let gm := setHintS gm "delta_sigma" (hintV 0 false)
  setHintS gm "ratio_adjust" (hintV 1 false)

/-- element_mod accumulation: element_mod += gauss_mod, starting from None. -/
def addToElementMod (em : Option (List SubModel)) (gm : SubModel) : Option (List SubModel) :=
  match em with
  | some l => some (l ++ [gm])
  | none => some [gm]

/-- One iteration of the K loop: skip the line if its cross-section is
zero, else build its sub-model and accumulate it. -/
def kStep (ename : String) (e : ElementPhysics) (incident_energy : ℚ)
    (parameter : ParamDict) (cpv : String → ℚ)
    (em : Option (List SubModel)) (item : String × ℚ) :
    Except PyErr (Option (List SubModel)) :=
  if e.cs incident_energy item.1 = 0 then .ok em
  else
    match kLineModel ename item.1 item.2
        (e.cs incident_energy item.1 / e.cs incident_energy "ka1") parameter cpv with
    | .error err => .error err
    | .ok gm => .ok (addToElementMod em gm)

/-- One iteration of the L loop. -/
def lStep (ename : String) (e : ElementPhysics) (incident_energy : ℚ)
    (parameter : ParamDict) (cpv : String → ℚ)
    (em : Option (List SubModel)) (item : String × ℚ) :
    Except PyErr (Option (List SubModel)) :=
  if e.cs incident_energy item.1 = 0 then .ok em
  else
    match lLineModel ename item.1 item.2
        (e.cs incident_energy item.1 / e.cs incident_energy "la1") parameter cpv with
    | .error err => .error err
    | .ok gm => .ok (addToElementMod em gm)

/-- One iteration of the M loop. -/
def mStep (ename : String) (e : ElementPhysics) (incident_energy : ℚ)
    (cpv : String → ℚ) (em : Option (List SubModel)) (item : String × ℚ) :
    Except PyErr (Option (List SubModel)) :=
  if e.cs incident_energy item.1 = 0 then .ok em
  else .ok (addToElementMod em (mLineModel ename item.1 item.2 cpv))

/-- ModelSpectrum.setElementModel: dispatch on line-family membership; a
zero cross-section of the principal line short-circuits to no model
(returns None); K uses the first 4 tabulated lines, L the middle slice
all[4:-4], M the last 4. -/
def setElementModel (ename : String) (incident_energy : ℚ) (parameter : ParamDict)
    (phys : String → ElementPhysics) (cpv : String → ℚ) :
    Except PyErr (Option (List SubModel)) :=
  if ename ∈ k_line then
    if (phys ename).cs incident_energy "ka1" = 0 then .ok none
    else ((phys ename).lines.take 4).foldlM
      (kStep ename (phys ename) incident_energy parameter cpv) none
  else if ename ∈ l_line then
    if (phys (ename.dropRight 2)).cs incident_energy "la1" = 0 then .ok none
    else (((phys (ename.dropRight 2)).lines.drop 4).take
        ((phys (ename.dropRight 2)).lines.length - 8)).foldlM
      (lStep (ename.dropRight 2) (phys (ename.dropRight 2)) incident_energy parameter cpv) none
  else if ename ∈ m_line then
    if (phys (ename.dropRight 2)).cs incident_energy "ma1" = 0 then .ok none
    else ((phys (ename.dropRight 2)).lines.drop
        ((phys (ename.dropRight 2)).lines.length - 4)).foldlM
      (mStep (ename.dropRight 2) (phys (ename.dropRight 2)) incident_energy cpv) none
  else .ok none

/-- The state a ModelSpectrum instance holds after construction.
element_list is None exactly when the attribute was never assigned in
_config (the element_list key was absent and only logged). -/
structure ModelSpectrumS where
  parameter : ParameterTable
  element_list : Option (List String)
  incident_energy : ℚ
  compton : SubModel
  elastic : SubModel
deriving DecidableEq

/-- Parse the element_list string: split on comma-space when a comma is
present, else on whitespace; strip each token. -/
def parseElementList (s : String) : List String :=
  ((if s.data.contains ',' then splitCommaSpace s.data []
    else splitWS s.data []).map (fun l => String.mk l)).map (fun t => pyStrip t)

/-- ModelSpectrum construction (with _config): the caller's table is stored
as-is, element_list parsed when present, incident energy read from the
coherent_sct_energy entry, then the Compton and Elastic models are built. -/
def ModelSpectrum_init (xrf_parameter : ParameterTable)
    (dflt : String → ParameterSpec) : Except PyErr ModelSpectrumS :=
  match dictGet xrf_parameter.params "coherent_sct_energy" with
  | none => .error (.keyError "coherent_sct_energy")
  | some ce =>
    match setComptonModel xrf_parameter.params dflt with
    | .error e => .error e
    | .ok compton =>
      match setElasticModel compton xrf_parameter.params dflt with
      | .error e => .error e
      | .ok elastic =>
        .ok { parameter := xrf_parameter,
              element_list :=
                (xrf_parameter.non_fitting_values.element_list).map parseElementList,
              incident_energy := ce.value, compton := compton, elastic := elastic }

/-- One step of model_spectrum's loop: self.mod += self.setElementModel(ename).
Modelled from the spec: the boundary framework composes models additively;
adding the None returned for an inactive element is not a model composition
and raises. -/
def msStep (ms : ModelSpectrumS) (phys : String → ElementPhysics)
    (mod : List SubModel) (ename : String) : Except PyErr (List SubModel) :=
  match setElementModel ename ms.incident_energy ms.parameter.params phys
      (comptonValue ms.compton) with
  | .error e => .error e
  | .ok none => .error (.typeError "unsupported operand")
  | .ok (some l) => .ok (mod ++ l)

/-- ModelSpectrum.model_spectrum: start from compton + elastic, then add
every configured element's model; reading the element_list attribute when
it was never assigned is an AttributeError. -/
def model_spectrum (ms : ModelSpectrumS) (phys : String → ElementPhysics) :
    Except PyErr (List SubModel) :=
  match ms.element_list with
  | none => .error (.attributeError "element_list")
  | some elist => elist.foldlM (msStep ms phys) [ms.compton, ms.elastic]

/-- Modelled from the spec: the boundary Gaussian lineshape primitive
(skxray.fitting.lineshapes.gaussian, not under src/) is the normalized
Gaussian function of (x, amplitude, center, sigma) with amplitude area. -/
noncomputable def gaussian (x area center sigma : ℝ) : ℝ :=
  area / (sigma * Real.sqrt (2 * Real.pi)) * Real.exp (-(x - center) ^ 2 / (2 * sigma ^ 2))

/-- The detector-resolution model of element_peak_xrf's inner get_sigma:
temp_val = 2*sqrt(2*log 2), sigma = sqrt((fwhm_offset/temp_val)^2 +
center*epsilon*fwhm_fanoprime). -/
noncomputable def get_sigma (fwhm_offset fwhm_fanoprime epsilon center : ℝ) : ℝ :=
  Real.sqrt ((fwhm_offset / (2 * Real.sqrt (2 * Real.log 2))) ^ 2
    + center * epsilon * fwhm_fanoprime)

/-- The per-line peak lineshape (element_peak_xrf): energy-calibrate x,
then a Gaussian at center+delta_center with width delta_sigma+sigma(center),
scaled by the branching ratio and its adjustment. -/
noncomputable def element_peak_xrf (x area center delta_center delta_sigma
    ratio_br ratio_adjust fwhm_offset fwhm_fanoprime
    e_offset e_linear e_quadratic epsilon : ℝ) : ℝ :=
  gaussian (e_offset + x * e_linear + x ^ 2 * e_quadratic) area (center + delta_center)
    (delta_sigma + get_sigma fwhm_offset fwhm_fanoprime epsilon center)
    * ratio_br * ratio_adjust

/-- A heap of parameter tables addressed by reference, capturing Python's
aliasing of mutable dicts across assignments. -/
def Heap := Nat → ParamDict

def heapRead (h : Heap) (r : Nat) : ParamDict := h r

def heapWrite (h : Heap) (r : Nat) (t : ParamDict) : Heap :=
  fun i => if i = r then t else h i

/-- The reference a ModelSpectrum instance holds to its parameter table. -/
structure ModelSpectrumRef where
  parameter : Nat
deriving DecidableEq

/-- ModelSpectrum.__init__ stores the caller's table reference directly
(self.parameter = xrf_parameter); no copy of the dict is made. -/
def modelSpectrum_store_table (xrf_parameter : Nat) : ModelSpectrumRef :=
  { parameter := xrf_parameter }

/-- A mutation performed through an instance's stored table: write one
entry of the dict the instance's parameter reference points to. -/
def setParamThroughInstance (h : Heap) (ms : ModelSpectrumRef) (k : String)
    (v : ParameterSpec) : Heap :=
  heapWrite h ms.parameter (dictSet (heapRead h ms.parameter) k v)

/-- Get the payload of a successful Except, with a fallback default. -/
def exceptGetD {ε α : Type} (e : Except ε α) (d : α) : α :=
  match e with
  | .ok a => a
  | .error _ => d

def exceptIsOk {ε α : Type} : Except ε α → Bool
  | .ok _ => true
  | .error _ => false

/-- A well-formed free ParameterSpec with a given value (used as a concrete
default table and fixture entries). -/
def spec_none (v : ℚ) : ParameterSpec :=
  { bound_type := "none", value := v, min := 0, max := 0,
    free_more := "none", adjust_element := "none", e_calibration := "none", linear := "none" }

def dflt0 : String → ParameterSpec := fun _ => spec_none 0

/-- A table whose non_fitting_values lacks the element_list key. -/
def c6_table : ParameterTable :=
  { params := [("coherent_sct_energy", spec_none 10)],
    non_fitting_values :=
      { element_list := none, energy_bound_low := 2, energy_bound_high := 10 } }

/-- A table configured for the single element Fe. -/
def c7_table : ParameterTable :=
  { params := [("coherent_sct_energy", spec_none 10)],
    non_fitting_values :=
      { element_list := some "Fe", energy_bound_low := 2, energy_bound_high := 10 } }

/-- Physics fixture: every cross-section is zero at every energy. -/
def physInactive : String → ElementPhysics :=
  fun _ => { lines := [("ka1", 6.4)], cs := fun _ _ => 0 }

/-- Physics fixture: every cross-section is 1 at every energy. -/
def physActive : String → ElementPhysics :=
  fun _ => { lines := [("ka1", 6.4)], cs := fun _ _ => 1 }

def subModel0 : SubModel := { pfx := "", hints := [] }

def ms_fallback : ModelSpectrumS :=
  { parameter := c6_table, element_list := none, incident_energy := 0,
    compton := subModel0, elastic := subModel0 }

/-- The instance a ModelSpectrum constructed from c6_table holds. -/
def c6_ms : ModelSpectrumS := exceptGetD (ModelSpectrum_init c6_table dflt0) ms_fallback

/-- A ModelSpectrum state configured for Fe at incident energy 10. -/
def c7_ms : ModelSpectrumS :=
  { parameter := c7_table, element_list := some ["Fe"], incident_energy := 10,
    compton := subModel0, elastic := { pfx := "elastic_", hints := [] } }

/-- A ModelSpectrum state configured for the L-series name Ga_L. -/
def c7l_ms : ModelSpectrumS :=
  { parameter := c7_table, element_list := some ["Ga_L"], incident_energy := 10,
    compton := subModel0, elastic := { pfx := "elastic_", hints := [] } }

/-- A ModelSpectrum state configured for the M-series name Au_M. -/
def c7m_ms : ModelSpectrumS :=
  { parameter := c7_table, element_list := some ["Au_M"], incident_energy := 10,
    compton := subModel0, elastic := { pfx := "elastic_", hints := [] } }

/-- The Fe_ka1_area entry of a caller's table before the controller runs:
same shape as the area template but with value 500. -/
def fe_area_orig : ParameterSpec :=
  { bound_type := "none", value := 500, min := 0, max := 1000000000,
    free_more := "none", adjust_element := "fixed", e_calibration := "fixed", linear := "none" }

/-- The concrete elastic model built from an empty table and the free
default table. -/
def elasticC : SubModel :=
  exceptGetD (setElasticModel subModel0 [] dflt0) subModel0

/-- The concrete Compton model built from an empty table and the free
default table. -/
def comptonC : SubModel := exceptGetD (setComptonModel [] dflt0) subModel0

/-- The concrete element sub-model list built for Fe with active physics. -/
def modsC : List SubModel :=
  (exceptGetD (setElementModel "Fe" 10 [] physActive (fun _ => 0)) none).getD []

/-- Claim C1: for every ParameterSpec with bound_type hi, _set_parameter_hint
configures the target parameter as free (vary = true) with initial value
equal to the spec's value and with its lower bound set to the spec's max
field, and no upper bound is set (the source's literal behavior). -/
theorem hi_bound_sets_lower_bound_to_max (para_name : String) (m : SubModel)
    (px : String) (v mn mx : ℚ) (f a e l : String) :
    _set_parameter_hint para_name ⟨"hi", v, mn, mx, f, a, e, l⟩ m
      = .ok (setHintS m para_name ⟨some v, some true, some mx, none, none⟩) ∧
    _set_parameter_hint para_name ⟨"hi", v, mn, mx, f, a, e, l⟩ ⟨px, []⟩
      = .ok ⟨px, [(para_name, ⟨some v, some true, some mx, none, none⟩)]⟩ := by
  exact ⟨rfl, rfl⟩

/-- Lookup into a model after one hint write: the new binding is found for
its own name, anything else falls through. -/
theorem getHint_cons (m n : String) (h : Hint) (hs : ModelH) :
    getHint ((m, h) :: hs) n = if m = n then some h else getHint hs n := by
  by_cases hmn : m = n
  · subst hmn
    unfold getHint
    rw [List.find?_cons_of_pos]
    · rw [if_pos rfl]
      rfl
    · simp
  · unfold getHint
    rw [List.find?_cons_of_neg]
    · rw [if_neg hmn]
    · simp [hmn]

theorem getHint_setHint_self (hs : ModelH) (n : String) (h : Hint) :
    getHint (setHint hs n h) n = some (mergeHint ((getHint hs n).getD emptyHint) h) := by
  unfold setHint
  rw [getHint_cons, if_pos rfl]

theorem getHint_setHint_ne (hs : ModelH) (m n : String) (h : Hint) (hne : m ≠ n) :
    getHint (setHint hs m h) n = getHint hs n := by
  unfold setHint
  rw [getHint_cons, if_neg hne]

theorem hintExpr_setHintS_ne (s : SubModel) (m n : String) (h : Hint) (hne : m ≠ n) :
    hintExpr (setHintS s m h) n = hintExpr s n := by
  show (getHint (setHint s.hints m h) n).bind (fun h => h.expr) = _
  rw [getHint_setHint_ne s.hints m n h hne]
  rfl

theorem hintExpr_tieHint_self (s : SubModel) (n : String) (v : ℚ) :
    hintExpr (tieHint s n v) n = some n := by
  show (getHint (setHint s.hints n _) n).bind (fun h => h.expr) = _
  rw [getHint_setHint_self]
  rfl

theorem hintExpr_tieHint_ne (s : SubModel) (m n : String) (v : ℚ) (hne : m ≠ n) :
    hintExpr (tieHint s m v) n = hintExpr s n :=
  hintExpr_setHintS_ne s m n _ hne

theorem tieAll_cons (s : SubModel) (cpv : String → ℚ) (a : String) (t : List String) :
    tieAll s cpv (a :: t) = tieAll (tieHint s a (cpv a)) cpv t := by
  rfl

theorem hintExpr_tieAll_not_mem (cpv : String → ℚ) (names : List String) (s : SubModel)
    (n : String) (hn : n ∉ names) : hintExpr (tieAll s cpv names) n = hintExpr s n := by
  induction names generalizing s with
  | nil => rfl
  | cons a t ih =>
    rw [tieAll_cons]
    rw [ih (tieHint s a (cpv a)) (fun hmem => hn (List.mem_cons_of_mem a hmem))]
    exact hintExpr_tieHint_ne s a n (cpv a) (fun e => hn (e ▸ List.mem_cons_self a t))

theorem hintExpr_tieAll_mem (cpv : String → ℚ) (names : List String) (s : SubModel)
    (n : String) (hn : n ∈ names) (hd : names.Nodup) :
    hintExpr (tieAll s cpv names) n = some n := by
  induction names generalizing s with
  | nil => cases hn
  | cons a t ih =>
    rw [tieAll_cons]
    rcases List.mem_cons.mp hn with rfl | hnt
    · rw [hintExpr_tieAll_not_mem cpv t (tieHint s n (cpv n)) n (List.Nodup.not_mem hd)]
      exact hintExpr_tieHint_self s n (cpv n)
    · exact ih (tieHint s a (cpv a)) hnt (List.Nodup.of_cons hd)

/-- Every successful _set_parameter_hint call is a single hint write for
the given parameter name. -/
theorem sph_ok (pn : String) (d : ParameterSpec) (m m2 : SubModel)
    (hok : _set_parameter_hint pn d m = .ok m2) : ∃ h, m2 = setHintS m pn h := by
  unfold _set_parameter_hint at hok
  split_ifs at hok
  all_goals
    first
      | (injection hok with h2; exact ⟨_, h2.symm⟩)
      | exact Except.noConfusion hok

theorem hintExpr_sph_ne (pn : String) (d : ParameterSpec) (m m2 : SubModel) (n : String)
    (hok : _set_parameter_hint pn d m = .ok m2) (hne : pn ≠ n) :
    hintExpr m2 n = hintExpr m n := by
  obtain ⟨h, rfl⟩ := sph_ok pn d m m2 hok
  exact hintExpr_setHintS_ne m pn n h hne

theorem hintExpr_applyTableOverride_ne (parameter : ParamDict) (key pn : String)
    (m m2 : SubModel) (n : String)
    (hok : applyTableOverride parameter key pn m = .ok m2) (hne : pn ≠ n) :
    hintExpr m2 n = hintExpr m n := by
  unfold applyTableOverride at hok
  cases hd : dictGet parameter key with
  | some d =>
    rw [hd] at hok
    exact hintExpr_sph_ne pn d m m2 n hok hne
  | none =>
    rw [hd] at hok
    injection hok with h2
    rw [← h2]

/-- None of the per-line parameter names a line model sets after its ties
collides with a tied global name. -/
theorem touched_ne_global :
    ∀ pn ∈ (["area", "delta_center", "delta_sigma", "center", "ratio",
             "ratio_adjust", "sigma", "epsilon"] : List String),
    ∀ n ∈ element_global_names, pn ≠ n := by decide

theorem getHint_setHint_self_isSome (hs : ModelH) (n : String) (h : Hint) :
    (getHint (setHint hs n h) n).isSome = true := by
  rw [getHint_setHint_self]
  rfl

theorem getHint_setHint_isSome (hs : ModelH) (k n : String) (h : Hint)
    (hsome : (getHint hs n).isSome = true) :
    (getHint (setHint hs k h) n).isSome = true := by
  by_cases hk : k = n
  · subst hk
    exact getHint_setHint_self_isSome hs k h
  · rw [getHint_setHint_ne hs k n h hk]
    exact hsome

theorem sph_isSome_self (pn : String) (d : ParameterSpec) (m m2 : SubModel)
    (hok : _set_parameter_hint pn d m = .ok m2) :
    (getHint m2.hints pn).isSome = true := by
  obtain ⟨h, rfl⟩ := sph_ok pn d m m2 hok
  exact getHint_setHint_self_isSome m.hints pn h

theorem sph_isSome_pres (pn : String) (d : ParameterSpec) (m m2 : SubModel) (n : String)
    (hok : _set_parameter_hint pn d m = .ok m2)
    (hsome : (getHint m.hints n).isSome = true) :
    (getHint m2.hints n).isSome = true := by
  obtain ⟨h, rfl⟩ := sph_ok pn d m m2 hok
  exact getHint_setHint_isSome m.hints pn n h hsome

theorem comptonStep_isSome_self (parameter : ParamDict) (dflt : String → ParameterSpec)
    (m m2 : SubModel) (name : String)
    (hok : comptonStep parameter dflt m name = .ok m2) :
    (getHint m2.hints name).isSome = true := by
  unfold comptonStep at hok
  cases hd : dictGet parameter name with
  | some d => rw [hd] at hok; exact sph_isSome_self name d m m2 hok
  | none => rw [hd] at hok; exact sph_isSome_self name (dflt name) m m2 hok

theorem comptonStep_isSome_pres (parameter : ParamDict) (dflt : String → ParameterSpec)
    (m m2 : SubModel) (name n : String)
    (hok : comptonStep parameter dflt m name = .ok m2)
    (hsome : (getHint m.hints n).isSome = true) :
    (getHint m2.hints n).isSome = true := by
  unfold comptonStep at hok
  cases hd : dictGet parameter name with
  | some d => rw [hd] at hok; exact sph_isSome_pres name d m m2 n hok hsome
  | none => rw [hd] at hok; exact sph_isSome_pres name (dflt name) m m2 n hok hsome

theorem comptonFold_isSome (parameter : ParamDict) (dflt : String → ParameterSpec)
    (names : List String) :
    ∀ m0 m2, names.foldlM (comptonStep parameter dflt) m0 = .ok m2 →
    ∀ n, (n ∈ names ∨ (getHint m0.hints n).isSome = true) →
    (getHint m2.hints n).isSome = true := by
  induction names with
  | nil =>
    intro m0 m2 hok n hcase
    rcases hcase with h | h
    · cases h
    · exact (Except.ok.inj hok) ▸ h
  | cons a t ih =>
    intro m0 m2 hok n hcase
    rw [List.foldlM_cons] at hok
    cases hs : comptonStep parameter dflt m0 a with
    | error e => rw [hs] at hok; exact Except.noConfusion hok
    | ok m1 =>
      rw [hs] at hok
      apply ih m1 m2 hok n
      rcases hcase with hmem | hsome
      · rcases List.mem_cons.mp hmem with rfl | hmt
        · right
          exact comptonStep_isSome_self parameter dflt m0 m1 n hs
        · left
          exact hmt
      · right
        exact comptonStep_isSome_pres parameter dflt m0 m1 a n hs hsome

/-- Every K-line sub-model keeps its five global ties: all hints the loop
body writes after the tie block use other parameter names. -/
theorem kLineModel_tied (ename line_name : String) (val rv : ℚ) (parameter : ParamDict)
    (cpv : String → ℚ) (gm : SubModel)
    (hok : kLineModel ename line_name val rv parameter cpv = .ok gm) :
    ∀ n ∈ element_global_names, hintExpr gm n = some n := by
  intro n hn
  simp only [kLineModel] at hok
  split at hok
  · exact Except.noConfusion hok
  · rename_i gm3 heq1
    split at hok
    · exact Except.noConfusion hok
    · rename_i gm5 heq2
      split at hok
      · exact Except.noConfusion hok
      · rename_i gm6 heq3
        rw [hintExpr_applyTableOverride_ne _ _ _ _ _ _ hok
          (touched_ne_global "ratio_adjust" (by decide) n hn)]
        rw [hintExpr_applyTableOverride_ne _ _ _ _ _ _ heq3
          (touched_ne_global "delta_sigma" (by decide) n hn)]
        rw [hintExpr_applyTableOverride_ne _ _ _ _ _ _ heq2
          (touched_ne_global "delta_center" (by decide) n hn)]
        rw [hintExpr_setHintS_ne _ _ _ _ (touched_ne_global "ratio_adjust" (by decide) n hn)]
        rw [hintExpr_setHintS_ne _ _ _ _ (touched_ne_global "ratio" (by decide) n hn)]
        rw [hintExpr_setHintS_ne _ _ _ _ (touched_ne_global "center" (by decide) n hn)]
        rw [hintExpr_applyTableOverride_ne _ _ _ _ _ _ heq1
          (touched_ne_global "area" (by decide) n hn)]
        by_cases h1 : line_name = "ka1"
        · rw [if_pos h1]
          rw [hintExpr_setHintS_ne _ _ _ _ (touched_ne_global "delta_sigma" (by decide) n hn)]
          rw [hintExpr_setHintS_ne _ _ _ _ (touched_ne_global "delta_center" (by decide) n hn)]
          rw [hintExpr_setHintS_ne _ _ _ _ (touched_ne_global "area" (by decide) n hn)]
          exact hintExpr_tieAll_mem cpv element_global_names _ n hn (by decide)
        · rw [if_neg h1]
          by_cases h2 : line_name = "ka2"
          · rw [if_pos h2]
            rw [hintExpr_setHintS_ne _ _ _ _ (touched_ne_global "delta_center" (by decide) n hn)]
            rw [hintExpr_setHintS_ne _ _ _ _ (touched_ne_global "delta_sigma" (by decide) n hn)]
            rw [hintExpr_setHintS_ne _ _ _ _ (touched_ne_global "area" (by decide) n hn)]
            exact hintExpr_tieAll_mem cpv element_global_names _ n hn (by decide)
          · rw [if_neg h2]
            rw [hintExpr_setHintS_ne _ _ _ _ (touched_ne_global "delta_sigma" (by decide) n hn)]
            rw [hintExpr_setHintS_ne _ _ _ _ (touched_ne_global "delta_center" (by decide) n hn)]
            rw [hintExpr_setHintS_ne _ _ _ _ (touched_ne_global "area" (by decide) n hn)]
            exact hintExpr_tieAll_mem cpv element_global_names _ n hn (by decide)

/-- Every L-line sub-model keeps its five global ties. -/
theorem lLineModel_tied (ename line_name : String) (val rv : ℚ) (parameter : ParamDict)
    (cpv : String → ℚ) (gm : SubModel)
    (hok : lLineModel ename line_name val rv parameter cpv = .ok gm) :
    ∀ n ∈ element_global_names, hintExpr gm n = some n := by
  intro n hn
  simp only [lLineModel] at hok
  split at hok
  · exact Except.noConfusion hok
  · rename_i gm5 heq2
    split at hok
    · exact Except.noConfusion hok
    · rename_i gm6 heq3
      rw [hintExpr_applyTableOverride_ne _ _ _ _ _ _ hok
        (touched_ne_global "ratio_adjust" (by decide) n hn)]
      rw [hintExpr_applyTableOverride_ne _ _ _ _ _ _ heq3
        (touched_ne_global "delta_sigma" (by decide) n hn)]
      rw [hintExpr_applyTableOverride_ne _ _ _ _ _ _ heq2
        (touched_ne_global "delta_center" (by decide) n hn)]
      rw [hintExpr_setHintS_ne _ _ _ _ (touched_ne_global "ratio_adjust" (by decide) n hn)]
      rw [hintExpr_setHintS_ne _ _ _ _ (touched_ne_global "delta_sigma" (by decide) n hn)]
      rw [hintExpr_setHintS_ne _ _ _ _ (touched_ne_global "delta_center" (by decide) n hn)]
      rw [hintExpr_setHintS_ne _ _ _ _ (touched_ne_global "ratio" (by decide) n hn)]
      rw [hintExpr_setHintS_ne _ _ _ _ (touched_ne_global "sigma" (by decide) n hn)]
      rw [hintExpr_setHintS_ne _ _ _ _ (touched_ne_global "center" (by decide) n hn)]
      by_cases h1 : line_name = "la1"
      · rw [if_pos h1]
        rw [hintExpr_setHintS_ne _ _ _ _ (touched_ne_global "area" (by decide) n hn)]
        exact hintExpr_tieAll_mem cpv element_global_names _ n hn (by decide)
      · rw [if_neg h1]
        rw [hintExpr_setHintS_ne _ _ _ _ (touched_ne_global "area" (by decide) n hn)]
        exact hintExpr_tieAll_mem cpv element_global_names _ n hn (by decide)

/-- Every M-line sub-model keeps its five global ties. -/
theorem mLineModel_tied (ename line_name : String) (val : ℚ) (cpv : String → ℚ) :
    ∀ n ∈ element_global_names, hintExpr (mLineModel ename line_name val cpv) n = some n := by
  intro n hn
  unfold mLineModel
  rw [hintExpr_setHintS_ne _ _ _ _ (touched_ne_global "ratio_adjust" (by decide) n hn)]
  rw [hintExpr_setHintS_ne _ _ _ _ (touched_ne_global "delta_sigma" (by decide) n hn)]
  rw [hintExpr_setHintS_ne _ _ _ _ (touched_ne_global "delta_center" (by decide) n hn)]
  rw [hintExpr_setHintS_ne _ _ _ _ (touched_ne_global "ratio" (by decide) n hn)]
  rw [hintExpr_setHintS_ne _ _ _ _ (touched_ne_global "sigma" (by decide) n hn)]
  rw [hintExpr_setHintS_ne _ _ _ _ (touched_ne_global "center" (by decide) n hn)]
  by_cases h1 : line_name = "ma1"
  · rw [if_pos h1]
    rw [hintExpr_setHintS_ne _ _ _ _ (touched_ne_global "area" (by decide) n hn)]
    exact hintExpr_tieAll_mem cpv element_global_names _ n hn (by decide)
  · rw [if_neg h1]
    rw [hintExpr_setHintS_ne _ _ _ _ (touched_ne_global "area" (by decide) n hn)]
    exact hintExpr_tieAll_mem cpv element_global_names _ n hn (by decide)

theorem addToElementMod_getD (em : Option (List SubModel)) (gm : SubModel) :
    (addToElementMod em gm).getD [] = em.getD [] ++ [gm] := by
  cases em <;> rfl

/-- The accumulation invariant: if every sub-model a fold step adds keeps
its global ties, so does everything in the fold's final accumulator. -/
theorem foldStep_tied {γ : Type} (step : Option (List SubModel) → γ → Except PyErr (Option (List SubModel)))
    (hstep : ∀ em x em2, step em x = .ok em2 →
      (∀ sm ∈ em.getD [], ∀ n ∈ element_global_names, hintExpr sm n = some n) →
      (∀ sm ∈ em2.getD [], ∀ n ∈ element_global_names, hintExpr sm n = some n))
    (l : List γ) :
    ∀ em0 em2, l.foldlM step em0 = .ok em2 →
      (∀ sm ∈ em0.getD [], ∀ n ∈ element_global_names, hintExpr sm n = some n) →
      (∀ sm ∈ em2.getD [], ∀ n ∈ element_global_names, hintExpr sm n = some n) := by
  induction l with
  | nil =>
    intro em0 em2 hok h0
    exact (Except.ok.inj hok) ▸ h0
  | cons a t ih =>
    intro em0 em2 hok h0
    rw [List.foldlM_cons] at hok
    cases hs : step em0 a with
    | error e => rw [hs] at hok; exact Except.noConfusion hok
    | ok em1 =>
      rw [hs] at hok
      exact ih em1 em2 hok (hstep em0 a em1 hs h0)

theorem kStep_tied (ename : String) (e : ElementPhysics) (ie : ℚ) (parameter : ParamDict)
    (cpv : String → ℚ) (em : Option (List SubModel)) (item : String × ℚ)
    (em2 : Option (List SubModel))
    (hok : kStep ename e ie parameter cpv em item = .ok em2)
    (h0 : ∀ sm ∈ em.getD [], ∀ n ∈ element_global_names, hintExpr sm n = some n) :
    ∀ sm ∈ em2.getD [], ∀ n ∈ element_global_names, hintExpr sm n = some n := by
  unfold kStep at hok
  split at hok
  · exact (Except.ok.inj hok) ▸ h0
  · split at hok
    · exact Except.noConfusion hok
    · rename_i gm heq
      have hgm := kLineModel_tied _ _ _ _ _ _ _ heq
      have h2 : em2 = addToElementMod em gm := (Except.ok.inj hok).symm
      subst h2
      intro sm hsm n hn
      rw [addToElementMod_getD] at hsm
      rcases List.mem_append.mp hsm with hsm2 | hsm2
      · exact h0 sm hsm2 n hn
      · have : sm = gm := List.mem_singleton.mp hsm2
        subst this
        exact hgm n hn

theorem lStep_tied (ename : String) (e : ElementPhysics) (ie : ℚ) (parameter : ParamDict)
    (cpv : String → ℚ) (em : Option (List SubModel)) (item : String × ℚ)
    (em2 : Option (List SubModel))
    (hok : lStep ename e ie parameter cpv em item = .ok em2)
    (h0 : ∀ sm ∈ em.getD [], ∀ n ∈ element_global_names, hintExpr sm n = some n) :
    ∀ sm ∈ em2.getD [], ∀ n ∈ element_global_names, hintExpr sm n = some n := by
  unfold lStep at hok
  split at hok
  · exact (Except.ok.inj hok) ▸ h0
  · split at hok
    · exact Except.noConfusion hok
    · rename_i gm heq
      have hgm := lLineModel_tied _ _ _ _ _ _ _ heq
      have h2 : em2 = addToElementMod em gm := (Except.ok.inj hok).symm
      subst h2
      intro sm hsm n hn
      rw [addToElementMod_getD] at hsm
      rcases List.mem_append.mp hsm with hsm2 | hsm2
      · exact h0 sm hsm2 n hn
      · have : sm = gm := List.mem_singleton.mp hsm2
        subst this
        exact hgm n hn

theorem mStep_tied (ename : String) (e : ElementPhysics) (ie : ℚ)
    (cpv : String → ℚ) (em : Option (List SubModel)) (item : String × ℚ)
    (em2 : Option (List SubModel))
    (hok : mStep ename e ie cpv em item = .ok em2)
    (h0 : ∀ sm ∈ em.getD [], ∀ n ∈ element_global_names, hintExpr sm n = some n) :
    ∀ sm ∈ em2.getD [], ∀ n ∈ element_global_names, hintExpr sm n = some n := by
  unfold mStep at hok
  split at hok
  · exact (Except.ok.inj hok) ▸ h0
  · have h2 : em2 = addToElementMod em (mLineModel ename item.1 item.2 cpv) :=
      (Except.ok.inj hok).symm
    subst h2
    intro sm hsm n hn
    rw [addToElementMod_getD] at hsm
    rcases List.mem_append.mp hsm with hsm2 | hsm2
    · exact h0 sm hsm2 n hn
    · have : sm = mLineModel ename item.1 item.2 cpv := List.mem_singleton.mp hsm2
      subst this
      exact mLineModel_tied ename item.1 item.2 cpv n hn

/-- Every sub-model setElementModel returns has its five global parameters
tied by symbolic expression to the identically-named global. -/
theorem setElementModel_tied (ename : String) (ie : ℚ) (parameter : ParamDict)
    (phys : String → ElementPhysics) (cpv : String → ℚ) (mods : List SubModel)
    (hok : setElementModel ename ie parameter phys cpv = .ok (some mods)) :
    ∀ sm ∈ mods, ∀ n ∈ element_global_names, hintExpr sm n = some n := by
  unfold setElementModel at hok
  have hvac : ∀ sm ∈ (none : Option (List SubModel)).getD [],
      ∀ n ∈ element_global_names, hintExpr sm n = some n := by
    intro sm hsm
    cases hsm
  split_ifs at hok
  · exact Option.noConfusion (Except.ok.inj hok)
  · exact foldStep_tied _ (fun em x em2 h h0 => kStep_tied _ _ _ _ _ _ _ _ h h0) _
      none (some mods) hok hvac
  · exact Option.noConfusion (Except.ok.inj hok)
  · exact foldStep_tied _ (fun em x em2 h h0 => lStep_tied _ _ _ _ _ _ _ _ h h0) _
      none (some mods) hok hvac
  · exact Option.noConfusion (Except.ok.inj hok)
  · exact foldStep_tied _ (fun em x em2 h h0 => mStep_tied _ _ _ _ _ _ _ h h0) _
      none (some mods) hok hvac
  · exact Option.noConfusion (Except.ok.inj hok)

/-- A fold whose step always fails at some member of the list never
returns a value. -/
theorem foldlM_not_ok {α β : Type} (f : β → α → Except PyErr β) (l : List α) (x : α)
    (hf : ∀ acc r, f acc x ≠ .ok r) :
    x ∈ l → ∀ init r, l.foldlM f init ≠ .ok r := by
  induction l with
  | nil =>
    intro hx
    cases hx
  | cons a t ih =>
    intro hx init r hok
    rw [List.foldlM_cons] at hok
    cases hs : f init a with
    | error e => rw [hs] at hok; exact Except.noConfusion hok
    | ok b =>
      rcases List.mem_cons.mp hx with rfl | hxt
      · exact hf init b hs
      · rw [hs] at hok
        exact ih hxt b r hok

/-- Claim C2: in every composite built by ModelSpectrum, the elastic
sub-model's e_offset, e_linear, e_quadratic, fwhm_offset, fwhm_fanoprime
and coherent_sct_energy, and every element sub-line sub-model's e_offset,
e_linear, e_quadratic, fwhm_offset and fwhm_fanoprime, carry a symbolic
expression naming the identically-named Compton parameter (which the
Compton model defines), so one energy-calibration curve and one
resolution model are shared by all sub-models. -/
theorem global_calibration_shared :
    (∀ (compton : SubModel) (parameter : ParamDict) (dflt : String → ParameterSpec)
        (elastic : SubModel),
        setElasticModel compton parameter dflt = .ok elastic →
        ∀ n ∈ elastic_global_names, hintExpr elastic n = some n) ∧
    (∀ (parameter : ParamDict) (dflt : String → ParameterSpec) (compton : SubModel),
        setComptonModel parameter dflt = .ok compton →
        ∀ n ∈ elastic_global_names, (getHint compton.hints n).isSome = true) ∧
    (∀ (ename : String) (ie : ℚ) (parameter : ParamDict) (phys : String → ElementPhysics)
        (cpv : String → ℚ) (mods : List SubModel),
        setElementModel ename ie parameter phys cpv = .ok (some mods) →
        ∀ sm ∈ mods, ∀ n ∈ element_global_names, hintExpr sm n = some n) := by
  refine ⟨?_, ?_, ?_⟩
  · intro compton parameter dflt elastic hok n hn
    unfold setElasticModel at hok
    split at hok
    · exact Except.noConfusion hok
    · rename_i e0 heq
      have h2 := Except.ok.inj hok
      rw [← h2]
      exact hintExpr_tieAll_mem (comptonValue compton) elastic_global_names e0 n hn (by decide)
  · intro parameter dflt compton hok n hn
    have hsub : ∀ x ∈ elastic_global_names, x ∈ compton_list := by decide
    exact comptonFold_isSome parameter dflt compton_list _ compton hok n (Or.inl (hsub n hn))
  · intro ename ie parameter phys cpv mods hok
    exact setElementModel_tied ename ie parameter phys cpv mods hok

/-- Witness for C2 at a concrete table, default set and physics. -/
theorem global_calibration_shared_w :
    hintExpr elasticC "coherent_sct_energy" = some "coherent_sct_energy" ∧
    (getHint comptonC.hints "e_offset").isSome = true ∧
    hintExpr (modsC.get ⟨0, by decide⟩) "e_offset" = some "e_offset" :=
  ⟨global_calibration_shared.1 subModel0 [] dflt0 elasticC rfl "coherent_sct_energy" (by decide),
   global_calibration_shared.2.1 [] dflt0 comptonC rfl "e_offset" (by decide),
   global_calibration_shared.2.2 "Fe" 10 [] physActive (fun _ => 0) modsC rfl
     (modsC.get ⟨0, by decide⟩) (List.get_mem modsC 0 (by decide)) "e_offset" (by decide)⟩

/-- Claim C3: with delta_center = 0, delta_sigma = 0, e_offset = 0,
e_linear = 1, e_quadratic = 0, the per-line peak lineshape equals the
boundary normalized Gaussian of (x, area, center, sigma) at
sigma = sqrt((fwhm_offset/(2*sqrt(2*ln 2)))^2 + center*2.96*fwhm_fanoprime),
multiplied by ratio*ratio_adjust. -/
theorem element_peak_xrf_reduces_to_gaussian
    (x area center ratio_br ratio_adjust fwhm_offset fwhm_fanoprime : ℝ) :
    element_peak_xrf x area center 0 0 ratio_br ratio_adjust fwhm_offset fwhm_fanoprime
        0 1 0 2.96 =
      gaussian x area center
        (Real.sqrt ((fwhm_offset / (2 * Real.sqrt (2 * Real.log 2))) ^ 2
          + center * 2.96 * fwhm_fanoprime)) * ratio_br * ratio_adjust := by
  unfold element_peak_xrf get_sigma
  norm_num

/-- Claim C4: for every element name not in the K-series list, get_sum_area
surfaces an error (the source reads the never-assigned local sum, an
UnboundLocalError) and never returns a numeric result. -/
theorem get_sum_area_non_k_errors (element_name : String) (result_val : FitResult)
    (h : element_name ∉ k_line) :
    get_sum_area element_name result_val = .error (.unboundLocalError "sum") := by
  unfold get_sum_area
  rw [if_neg h]

/-- Witness for C4 at the L-series name Ga_L. -/
theorem get_sum_area_non_k_errors_w :
    ("Ga_L" ∉ k_line) ∧
    get_sum_area "Ga_L" [] = .error (.unboundLocalError "sum") :=
  ⟨by decide, get_sum_area_non_k_errors "Ga_L" [] (by decide)⟩

theorem zip_map_fst_snd {α β : Type} (l : List (α × β)) :
    (l.map Prod.fst).zip (l.map Prod.snd) = l := by
  induction l with
  | nil => rfl
  | cons a t ih => simp [ih]

/-- Claim C9: set_range returns exactly the pairs (x_i, y_i) with
energy_bound_low*100 < x_i < energy_bound_high*100 (both bounds strictly
exclusive), in their original order, as two parallel lists of equal
length. -/
theorem set_range_strict_window (p : ParameterTable) (x1 y1 : List ℚ) :
    ((set_range p x1 y1).1).zip ((set_range p x1 y1).2)
        = (x1.zip y1).filter (fun item =>
            decide (p.non_fitting_values.energy_bound_low * 100 < item.1 ∧
                    item.1 < p.non_fitting_values.energy_bound_high * 100)) ∧
    (set_range p x1 y1).1.length = (set_range p x1 y1).2.length ∧
    ∀ a b : ℚ, ((a, b) ∈ ((set_range p x1 y1).1).zip ((set_range p x1 y1).2) ↔
      ((a, b) ∈ x1.zip y1 ∧ p.non_fitting_values.energy_bound_low * 100 < a ∧
        a < p.non_fitting_values.energy_bound_high * 100)) := by
  refine ⟨zip_map_fst_snd _, by simp [set_range], ?_⟩
  intro a b
  have hz : ((set_range p x1 y1).1).zip ((set_range p x1 y1).2)
      = (x1.zip y1).filter (fun item =>
          decide (p.non_fitting_values.energy_bound_low * 100 < item.1 ∧
                  item.1 < p.non_fitting_values.energy_bound_high * 100)) :=
    zip_map_fst_snd _
  rw [hz, List.mem_filter]
  simp

/-- Any member of a list is at most its running foldl maximum. -/
theorem le_foldl_max (l : List ℚ) : ∀ b v : ℚ, (v ≤ b ∨ v ∈ l) → v ≤ l.foldl max b := by
  induction l with
  | nil =>
    intro b v h
    rcases h with h | h
    · exact h
    · cases h
  | cons a t ih =>
    intro b v h
    rw [List.foldl_cons]
    rcases h with h | h
    · exact ih (max b a) v (Or.inl (le_trans h (le_max_left b a)))
    · rcases List.mem_cons.mp h with rfl | hmem
      · exact ih (max b v) v (Or.inl (le_max_right b v))
      · exact ih (max b a) v (Or.inr hmem)

theorem mem_le_listMax (l : List ℚ) (v : ℚ) (hv : v ∈ l) : v ≤ listMax l := by
  cases l with
  | nil => cases hv
  | cons a t =>
    rcases List.mem_cons.mp hv with rfl | hmem
    · exact le_foldl_max t v v (Or.inl le_rfl)
    · exact le_foldl_max t a v (Or.inr hmem)

theorem mem_zip_map {α β : Type} (f : α → β) (l : List α) (p : α × β)
    (hp : p ∈ l.zip (l.map f)) : p.2 = f p.1 ∧ p.1 ∈ l := by
  induction l with
  | nil => cases hp
  | cons a t ih =>
    rw [List.map_cons, List.zip_cons_cons] at hp
    rcases List.mem_cons.mp hp with rfl | hmem
    · exact ⟨rfl, List.mem_cons_self a t⟩
    · obtain ⟨h1, h2⟩ := ih hmem
      exact ⟨h1, List.mem_cons_of_mem a h2⟩

/-- Claim C10: the weighted pre-fit computes per-channel weights
1/(1+experiments) with no guard; whenever every entry differs from -1 all
denominators are nonzero (well-defined), each normalized weight of a
nonnegative entry lies in (0, 1], and the input [-1] makes a denominator
zero, a division by zero at the public interface. -/
theorem nnls_weight_props :
    (∀ experiments : List ℚ, (∀ e ∈ experiments, e ≠ -1) →
      ∀ d ∈ nnls_weight_denominators experiments, d ≠ 0) ∧
    (∀ experiments : List ℚ, (∀ e ∈ experiments, e ≠ -1) →
      ∀ p ∈ experiments.zip (nnls_fit_weight_weights experiments),
        0 ≤ p.1 → 0 < p.2 ∧ p.2 ≤ 1) ∧
    (0 : ℚ) ∈ nnls_weight_denominators [-1] := by
  refine ⟨?_, ?_, ?_⟩
  · intro exps hne d hd h0
    unfold nnls_weight_denominators at hd
    obtain ⟨e, he, hde⟩ := List.mem_map.mp hd
    apply hne e he
    linarith [hde ▸ h0]
  · intro exps hne p hp hpos
    unfold nnls_fit_weight_weights at hp
    rw [List.map_map, List.map_map] at hp
    obtain ⟨h2, h1⟩ := mem_zip_map _ exps p hp
    simp only [Function.comp] at h2
    have hd : (0 : ℚ) < 1 + p.1 := by linarith
    have hw : (0 : ℚ) < 1 / (1 + p.1) := by positivity
    have hwabs : (0 : ℚ) < |1 / (1 + p.1)| := abs_pos.mpr (ne_of_gt hw)
    have hmem : |1 / (1 + p.1)| ∈ (exps.map (fun e => 1 / (1 + e))).map (fun w => |w|) := by
      rw [List.map_map]
      exact List.mem_map.mpr ⟨p.1, h1, rfl⟩
    have hM : |1 / (1 + p.1)| ≤ listMax ((exps.map (fun e => 1 / (1 + e))).map (fun w => |w|)) :=
      mem_le_listMax _ _ hmem
    have hMpos : 0 < listMax ((exps.map (fun e => 1 / (1 + e))).map (fun w => |w|)) :=
      lt_of_lt_of_le hwabs hM
    rw [h2]
    constructor
    · exact div_pos hwabs hMpos
    · exact (div_le_one hMpos).mpr hM
  · show (0 : ℚ) ∈ [1 + (-1)]
    simp

/-- Witness for C10 at the single-channel experiment [2]. -/
theorem nnls_weight_props_w :
    ((1 : ℚ) + 2 ≠ 0) ∧ (0 < ((2 : ℚ), (1 : ℚ)).2 ∧ ((2 : ℚ), (1 : ℚ)).2 ≤ 1) :=
  ⟨nnls_weight_props.1 [2] (by norm_num) (1 + 2) (by simp [nnls_weight_denominators]),
   nnls_weight_props.2.1 [2] (by norm_num) ((2 : ℚ), (1 : ℚ))
     (by norm_num [nnls_fit_weight_weights, listMax]) (by norm_num)⟩

/-- Claim C5 counterexample: two ModelSpectrum instances built from the
same caller table share it; writing Fe_ka1_area through the first
instance's stored table is observed through the second instance's stored
table and through the caller's reference, refuting the claimed
copy-on-construction isolation. -/
theorem modelspectrum_table_shared_cex :
    dictGet
      (heapRead
        (setParamThroughInstance (fun _ => []) (modelSpectrum_store_table 0) "Fe_ka1_area"
          element_dict_area)
        (modelSpectrum_store_table 0).parameter)
      "Fe_ka1_area" = some element_dict_area ∧
    dictGet
      (heapRead
        (setParamThroughInstance (fun _ => []) (modelSpectrum_store_table 0) "Fe_ka1_area"
          element_dict_area)
        0)
      "Fe_ka1_area" = some element_dict_area ∧
    dictGet (heapRead (fun _ => []) 0) "Fe_ka1_area" = none :=
  ⟨rfl, rfl, rfl⟩

/-- Claim C5 amended: ModelSpectrum stores the caller's table by reference
(self.parameter = xrf_parameter, no copy), so a write through an
instance's stored table is a write to the caller's table, observable
through every instance built from the same reference. -/
theorem modelspectrum_aliases_caller_table (h : Heap) (r : Nat) (k : String)
    (v : ParameterSpec) :
    (modelSpectrum_store_table r).parameter = r ∧
    heapRead (setParamThroughInstance h (modelSpectrum_store_table r) k v)
      (modelSpectrum_store_table r).parameter = dictSet (heapRead h r) k v := by
  constructor
  · rfl
  · show heapWrite h r (dictSet (h r) k v) r = dictSet (h r) k v
    unfold heapWrite
    rw [if_pos rfl]

/-- Claim C6 counterexample: for the concrete table lacking element_list,
construction succeeds but model_spectrum raises an AttributeError instead
of producing a Compton-plus-Elastic composite. -/
theorem missing_element_list_cex :
    exceptIsOk (ModelSpectrum_init c6_table dflt0) = true ∧
    (ModelSpectrum_init c6_table dflt0).bind (fun ms => model_spectrum ms physInactive)
      = .error (.attributeError "element_list") :=
  ⟨rfl, rfl⟩

/-- Claim C6 amended: when non_fitting_values lacks element_list,
construction does not raise on that account (the absence is only logged
and the attribute stays unassigned), but a subsequent model_spectrum()
raises an AttributeError reading the never-assigned element_list, rather
than producing a Compton-plus-Elastic composite. -/
theorem missing_element_list_attribute_error (t : ParameterTable)
    (dflt : String → ParameterSpec) (phys : String → ElementPhysics) (ms : ModelSpectrumS)
    (hel : t.non_fitting_values.element_list = none)
    (hinit : ModelSpectrum_init t dflt = .ok ms) :
    ms.element_list = none ∧
    model_spectrum ms phys = .error (.attributeError "element_list") := by
  have hms : ms.element_list = none := by
    unfold ModelSpectrum_init at hinit
    split at hinit
    · exact Except.noConfusion hinit
    · split at hinit
      · exact Except.noConfusion hinit
      · split at hinit
        · exact Except.noConfusion hinit
        · have h2 := Except.ok.inj hinit
          rw [← h2, hel]
          rfl
  refine ⟨hms, ?_⟩
  unfold model_spectrum
  rw [hms]

/-- Witness for the amended C6 at the concrete c6 configuration. -/
theorem missing_element_list_attribute_error_w :
    c6_ms.element_list = none ∧
    model_spectrum c6_ms physInactive = .error (.attributeError "element_list") :=
  missing_element_list_attribute_error c6_table dflt0 physInactive c6_ms rfl rfl

/-- Claim C7 counterexample: with every Fe cross-section zero at the
incident energy, setElementModel returns no model, and building the full
composite raises (mod += None) instead of not raising. -/
theorem inactive_line_model_spectrum_cex :
    setElementModel "Fe" 10 c7_table.params physInactive (fun _ => 0) = .ok none ∧
    (ModelSpectrum_init c7_table dflt0).bind (fun ms => model_spectrum ms physInactive)
      = .error (.typeError "unsupported operand") :=
  ⟨rfl, rfl⟩

/-- Claim C7 amended: an element whose principal line (ka1 for K-series,
la1 for L-series, ma1 for M-series) has zero cross-section at the
incident energy yields no sub-model (setElementModel returns None); but
model_spectrum over an element list containing such an element then
raises when composing the missing model (self.mod += None), so building
the full composite never succeeds. -/
theorem inactive_principal_line_behavior (ename : String) (phys : String → ElementPhysics)
    (ms : ModelSpectrumS) (elist : List String)
    (hprin : (ename ∈ k_line ∧ (phys ename).cs ms.incident_energy "ka1" = 0)
      ∨ (ename ∈ l_line ∧ (phys (ename.dropRight 2)).cs ms.incident_energy "la1" = 0)
      ∨ (ename ∈ m_line ∧ (phys (ename.dropRight 2)).cs ms.incident_energy "ma1" = 0))
    (hel : ms.element_list = some elist) (hmem : ename ∈ elist) :
    setElementModel ename ms.incident_energy ms.parameter.params phys
      (comptonValue ms.compton) = .ok none ∧
    ∀ r, model_spectrum ms phys ≠ .ok r := by
  have hlk : ∀ x ∈ l_line, x ∉ k_line := by decide
  have hmk : ∀ x ∈ m_line, x ∉ k_line := by decide
  have hml : ∀ x ∈ m_line, x ∉ l_line := by decide
  have hset : ∀ (parameter : ParamDict) (cpv : String → ℚ),
      setElementModel ename ms.incident_energy parameter phys cpv = .ok none := by
    intro parameter cpv
    unfold setElementModel
    rcases hprin with ⟨hk, hcs⟩ | ⟨hl, hcs⟩ | ⟨hm, hcs⟩
    · rw [if_pos hk, if_pos hcs]
    · rw [if_neg (hlk ename hl), if_pos hl, if_pos hcs]
    · rw [if_neg (hmk ename hm), if_neg (hml ename hm), if_pos hm, if_pos hcs]
  have hf : ∀ acc r2, msStep ms phys acc ename ≠ .ok r2 := by
    intro acc r2 hok
    unfold msStep at hok
    rw [hset ms.parameter.params (comptonValue ms.compton)] at hok
    exact Except.noConfusion hok
  refine ⟨hset ms.parameter.params (comptonValue ms.compton), ?_⟩
  intro r
  unfold model_spectrum
  rw [hel]
  exact foldlM_not_ok (msStep ms phys) elist ename hf hmem [ms.compton, ms.elastic] r

/-- Witness for the amended C7 at all three families: Fe (K-series), Ga_L
(L-series) and Au_M (M-series), each with every cross-section zero. -/
theorem inactive_principal_line_behavior_w :
    (setElementModel "Fe" c7_ms.incident_energy c7_ms.parameter.params physInactive
        (comptonValue c7_ms.compton) = .ok none ∧
      model_spectrum c7_ms physInactive ≠ .ok []) ∧
    (setElementModel "Ga_L" c7l_ms.incident_energy c7l_ms.parameter.params physInactive
        (comptonValue c7l_ms.compton) = .ok none ∧
      model_spectrum c7l_ms physInactive ≠ .ok []) ∧
    (setElementModel "Au_M" c7m_ms.incident_energy c7m_ms.parameter.params physInactive
        (comptonValue c7m_ms.compton) = .ok none ∧
      model_spectrum c7m_ms physInactive ≠ .ok []) :=
  ⟨⟨(inactive_principal_line_behavior "Fe" physInactive c7_ms ["Fe"]
       (Or.inl ⟨by decide, rfl⟩) rfl (by decide)).1,
    (inactive_principal_line_behavior "Fe" physInactive c7_ms ["Fe"]
       (Or.inl ⟨by decide, rfl⟩) rfl (by decide)).2 []⟩,
   ⟨(inactive_principal_line_behavior "Ga_L" physInactive c7l_ms ["Ga_L"]
       (Or.inr (Or.inl ⟨by decide, rfl⟩)) rfl (by decide)).1,
    (inactive_principal_line_behavior "Ga_L" physInactive c7l_ms ["Ga_L"]
       (Or.inr (Or.inl ⟨by decide, rfl⟩)) rfl (by decide)).2 []⟩,
   ⟨(inactive_principal_line_behavior "Au_M" physInactive c7m_ms ["Au_M"]
       (Or.inr (Or.inr ⟨by decide, rfl⟩)) rfl (by decide)).1,
    (inactive_principal_line_behavior "Au_M" physInactive c7m_ms ["Au_M"]
       (Or.inr (Or.inr ⟨by decide, rfl⟩)) rfl (by decide)).2 []⟩⟩

theorem find?_filter_of_imp {α : Type} (l : List α) (p q : α → Bool)
    (h : ∀ a, p a = true → q a = true) :
    (l.filter q).find? p = l.find? p := by
  induction l with
  | nil => rfl
  | cons a t ih =>
    rw [List.filter_cons]
    by_cases hq : q a = true
    · rw [if_pos hq]
      by_cases hp : p a = true
      · rw [List.find?_cons_of_pos _ hp, List.find?_cons_of_pos _ hp]
      · rw [List.find?_cons_of_neg, List.find?_cons_of_neg]
        · exact ih
        · simp [hp]
        · simp [hp]
    · rw [if_neg hq, ih]
      rw [List.find?_cons_of_neg]
      intro hp
      exact hq (h a hp)

theorem dictGet_dictSet_ne (d : ParamDict) (k k2 : String) (v : ParameterSpec)
    (h : k2 ≠ k) : dictGet (dictSet d k v) k2 = dictGet d k2 := by
  unfold dictGet dictSet
  rw [List.find?_cons_of_neg]
  · rw [find?_filter_of_imp d (fun p => p.1 == k2) (fun p => p.1 != k)]
    intro a ha
    have ha2 : a.1 = k2 := by simpa using ha
    simp [ha2, h]
  · simp [Ne.symm h]

/-- Claim C8 counterexample: on a table whose Fe_ka1_area entry has value
500, setValues(["Fe"], {"area": "lohi"}) returns a table whose
Fe_ka1_area value is 1000 (the template value), so fields other than
adjust_element are not left unaffected. -/
theorem set_val_area_replaces_entry_cex :
    ((ElementController.init [("Fe_ka1_area", fe_area_orig)] ["Fe_ka1_area"]).set_val
        ["Fe"] [("area", "lohi")]).map
      (fun d => (dictGet d "Fe_ka1_area").map (fun s => s.value)) = .ok (some 1000) ∧
    fe_area_orig.value = 500 :=
  ⟨rfl, rfl⟩

/-- Claim C8 amended: setValues(["Fe"], {"area": "lohi"}) replaces the
entry Fe_ka1_area wholesale with the default area template whose
adjust_element is set to "lohi" (bound_type none, min 0, max 1e9, value
1000), touches no other key, and in particular leaves any
Fe_ka2_area/Fe_kb1_area entries unaffected. -/
theorem set_val_area_template_update (table : ParamDict) (fit_name : List String) :
    (ElementController.init table fit_name).set_val ["Fe"] [("area", "lohi")]
      = .ok (dictSet table "Fe_ka1_area"
          { element_dict_area with adjust_element := "lohi" }) ∧
    ∀ k2 : String, k2 ≠ "Fe_ka1_area" →
      dictGet (dictSet table "Fe_ka1_area"
          { element_dict_area with adjust_element := "lohi" }) k2
        = dictGet table k2 := by
  refine ⟨rfl, ?_⟩
  intro k2 hk2
  exact dictGet_dictSet_ne table "Fe_ka1_area" k2 _ hk2

/-- Witness for the amended C8 at a concrete table and the untouched key
Fe_kb1_ratio_adjust. -/
theorem set_val_area_template_update_w :
    (ElementController.init [("Fe_ka1_area", fe_area_orig)] ["Fe_ka1_area"]).set_val
        ["Fe"] [("area", "lohi")]
      = .ok (dictSet [("Fe_ka1_area", fe_area_orig)] "Fe_ka1_area"
          { element_dict_area with adjust_element := "lohi" }) ∧
    dictGet (dictSet [("Fe_ka1_area", fe_area_orig)] "Fe_ka1_area"
        { element_dict_area with adjust_element := "lohi" }) "Fe_kb1_ratio_adjust"
      = dictGet [("Fe_ka1_area", fe_area_orig)] "Fe_kb1_ratio_adjust" :=
  ⟨(set_val_area_template_update [("Fe_ka1_area", fe_area_orig)] ["Fe_ka1_area"]).1,
   (set_val_area_template_update [("Fe_ka1_area", fe_area_orig)] ["Fe_ka1_area"]).2
     "Fe_kb1_ratio_adjust" (by decide)⟩
